import Mathlib

/-!
Verification development for the MathMaster Pro application
(`src/MMP/content.js` and `src/unnamed/part_000`).

The JavaScript functions relevant to the checked properties are embedded
shallowly: pure string helpers become Lean functions on `String` / `List Char`,
the stream-completion handler becomes a state transition on an explicit
application-state record, and network-calling functions are modelled by the
ordered list of HTTP request bodies they emit together with the state they
produce.  `JSON.parse` is a JavaScript builtin, not repository code; it is
modelled by passing its outcome (`Option Json`) to the completion handler.
-/

namespace MMP

/-! ## Character and substring utilities (JS string semantics)

JavaScript `String.prototype.includes` / `startsWith` are substring /
prefix tests over the code units of the string; every token used by the
program fits in one unicode scalar, so `List Char` is a faithful carrier. -/

/-- Prefix test on character lists: `startsWithChars s pat` holds when `pat`
is an initial segment of `s` (JS `startsWith`). -/
def startsWithChars : List Char → List Char → Bool
  | _, [] => true
  | [], _ :: _ => false
  | c :: cs, p :: ps => c = p && startsWithChars cs ps

/-- Substring test on character lists (JS `includes`): `pat` occurs
contiguously somewhere in `s`. -/
def containsSub : List Char → List Char → Bool
  | [], pat => startsWithChars [] pat
  | c :: tl, pat => startsWithChars (c :: tl) pat || containsSub tl pat

/-- JS `s.includes(pat)` on strings. -/
def includes (s pat : String) : Bool :=
  containsSub s.data pat.data

/-- JS `s.startsWith(pat)` on strings. -/
def jsStartsWith (s pat : String) : Bool :=
  startsWithChars s.data pat.data

/-! ## The trigonometry regex of `content.js`

`detectMathTopic` in `content.js` line 44 tests
`input.match(/\b(sin|cos|tan)\b/)`.  A regex word boundary between two
positions holds when exactly one side is a word character `[A-Za-z0-9_]`;
since the listed words begin and end with word characters, the boundary on
each side amounts to the neighbouring character (if any) not being a word
character. -/

/-- JS regex word character class `\w` = `[A-Za-z0-9_]`. -/
def isWordChar (c : Char) : Bool :=
  c.isAlphanum || c = '_'

/-- Word boundary to the left of a match position, given the preceding
character (`none` at the start of the string). -/
def boundaryL : Option Char → Bool
  | none => true
  | some c => !isWordChar c

/-- Word boundary to the right of a match, given the rest of the string
after the matched word. -/
def boundaryR : List Char → Bool
  | [] => true
  | c :: _ => !isWordChar c

/-- The word `w` matches at the head of `s` with word boundaries on both
sides, `prev` being the character just before `s` in the whole input. -/
def wordHit (prev : Option Char) (s w : List Char) : Bool :=
  startsWithChars s w && boundaryL prev && boundaryR (s.drop w.length)

/-- The characters of the regex alternative `sin`. -/
def sinChars : List Char := ['s', 'i', 'n']

/-- The characters of the regex alternative `cos`. -/
def cosChars : List Char := ['c', 'o', 's']

/-- The characters of the regex alternative `tan`. -/
def tanChars : List Char := ['t', 'a', 'n']

/-- One of `sin`, `cos`, `tan` matches at the head of `s` with word
boundaries. -/
def hereMatch (prev : Option Char) (s : List Char) : Bool :=
  wordHit prev s sinChars || wordHit prev s cosChars || wordHit prev s tanChars

/-- Scan of the regex `\b(sin|cos|tan)\b` over the remaining input `s`,
`prev` being the character just before `s` (if any). -/
def trigScan : Option Char → List Char → Bool
  | _, [] => false
  | prev, c :: tl => hereMatch prev (c :: tl) || trigScan (some c) tl

/-- Truthiness of `input.match(/\b(sin|cos|tan)\b/)` (`content.js` line 44). -/
def trigRegexMatch (s : String) : Bool :=
  trigScan none s.data

/-! ## `cleanEquation` (`content.js` lines 34-36 and 1203-1206)

`str.replace(/\\/g, "").replace(/\{|\}/g, "").replace(/\$/g, "")` is three
successive global single-character-class deletions. -/

/-- First `replace`: delete every backslash. -/
def removeBackslashes (l : List Char) : List Char :=
  l.filter fun c => !(c = '\\')

/-- Second `replace`: delete every opening or closing brace. -/
def removeBraces (l : List Char) : List Char :=
  l.filter fun c => !(c = '\x7b' || c = '\x7d')

/-- Third `replace`: delete every dollar sign. -/
def removeDollars (l : List Char) : List Char :=
  l.filter fun c => !(c = '$')

/-- `cleanEquation` of `content.js`: the three deletions in source order.
(The copy at line 1203 adds `if (!str) return "";`, which agrees with this
definition on every string since both return `""` on `""`.) -/
def cleanEquation (s : String) : String :=
  ⟨removeDollars (removeBraces (removeBackslashes s.data))⟩

/-- Characters removed by `cleanEquation`, as one predicate: backslash,
either brace, or dollar. -/
def removedChar (c : Char) : Bool :=
  c = '\\' || c = '\x7b' || c = '\x7d' || c = '$'

/-! ## `detectMathTopic`, both source versions -/

/-- `detectMathTopic` of `content.js` lines 43-51: ordered checks, the
trigonometry rule using the word-boundary regex. -/
def detectMathTopic (input : String) : String :=
  if includes input "=" then "Algebra"
  else if trigRegexMatch input then "Trigonometry"
  else if includes input "∫" || includes input "d/dx" then "Calculus"
  else if includes input "√" then "Roots"
  else if includes input "%" then "Percentages"
  else if includes input "matrix" || includes input "[" then "Matrices"
  else "General Mathematics"

/-- `detectMathTopic` of `src/unnamed/part_000` lines 87-96: same ordered
checks, but the trigonometry rule uses plain substring containment
(`input.includes("sin") || input.includes("cos") || input.includes("tan")`). -/
def detectMathTopicP0 (input : String) : String :=
  if includes input "=" then "Algebra"
  else if includes input "sin" || includes input "cos" || includes input "tan"
    then "Trigonometry"
  else if includes input "∫" || includes input "d/dx" then "Calculus"
  else if includes input "√" then "Roots"
  else if includes input "%" then "Percentages"
  else if includes input "matrix" || includes input "[" then "Matrices"
  else "General Mathematics"

/-! ## JSON values and JavaScript truthiness

`JSON.parse` yields null, booleans, numbers, strings, arrays or objects.
Numbers are modelled by `Int`; of a number only zero-ness matters to the
program (JS truthiness), and `JSON.parse` never produces `NaN`. -/

/-- JSON values as produced by `JSON.parse`. -/
inductive Json where
  | null : Json
  | bool : Bool → Json
  | num : Int → Json
  | str : String → Json
  | arr : List Json → Json
  | obj : List (String × Json) → Json

/-- JavaScript truthiness of a JSON value.  Arrays and objects are always
truthy, in particular the empty array `[]`. -/
def truthy : Json → Bool
  | Json.null => false
  | Json.bool b => b
  | Json.num n => !(n = 0)
  | Json.str s => !(s = "")
  | Json.arr _ => true
  | Json.obj _ => true

/-- Object field lookup; with duplicate keys `JSON.parse` keeps the last
binding, so later bindings win. -/
def lookupField : List (String × Json) → String → Option Json
  | [], _ => none
  | (k, v) :: rest, key =>
    match lookupField rest key with
    | some r => some r
    | none => if k = key then some v else none

/-- JS property access `j?.key`: a field of an object, `undefined`
(here `none`) on a non-object or a missing key. -/
def getField (j : Json) (key : String) : Option Json :=
  match j with
  | Json.obj fields => lookupField fields key
  | _ => none

/-- Truthiness of a possibly-`undefined` value: `undefined` is falsy. -/
def truthyOpt : Option Json → Bool
  | none => false
  | some j => truthy j

/-! ## The stream-completion handler (`handleStreamResponse.onFinish`,
`content.js` lines 397-422) -/

/-- One entry of the local solution history. -/
structure HistoryEntry where
  input : String
  solution : Json
  timestamp : String

/-- The application-state cells touched by the completion handler. -/
structure SolveState where
  input : String
  solution : Option Json
  error : Option String
  streamingResponse : String
  history : List HistoryEntry

/-- Error message for a stream payload that is not valid JSON. -/
def invalidFormatMsg : String :=
  "Received invalid response format. Please try again."

/-- Error message for a parsed payload failing the field check. -/
def incompleteMsg : String :=
  "Received incomplete solution data. Please try again."

/-- JS `arr.slice(-5)`: the suffix of the last (at most) five elements. -/
def sliceLast5 (l : List HistoryEntry) : List HistoryEntry :=
  l.drop (l.length - 5)

/-- The history update of the success branch:
`[...prev, entry].slice(-5)`. -/
def historyAppend (prev : List HistoryEntry) (e : HistoryEntry) : List HistoryEntry :=
  sliceLast5 (prev ++ [e])

/-- The `onFinish` callback of `handleStreamResponse`.  `parseResult` is the
outcome of `JSON.parse(message)` (`none` when it throws), `ts` the value of
`new Date().toLocaleString()`.  The buffer is cleared first
(`setStreamingResponse("")`), then: parse failure reports the format error;
a payload whose `steps` or `final_answer` is missing or falsy reports the
incompleteness error; otherwise the payload is committed and a history
entry appended.  (`part_000` lines 43-85 behaves identically on every
parse outcome.) -/
def onFinish (parseResult : Option Json) (ts : String) (s : SolveState) : SolveState :=
  let s0 := { s with streamingResponse := "" }
  match parseResult with
  | none => { s0 with error := some invalidFormatMsg }
  | some parsed =>
    if !truthyOpt (getField parsed "steps") || !truthyOpt (getField parsed "final_answer") then
      { s0 with error := some incompleteMsg }
    else
      { s0 with
          solution := some parsed,
          history := historyAppend s0.history
            { input := s0.input, solution := parsed, timestamp := ts } }

/-- The acceptance condition of `onFinish` on a parsed payload: both
`steps` and `final_answer` present and truthy. -/
def accepts (parsed : Json) : Bool :=
  truthyOpt (getField parsed "steps") && truthyOpt (getField parsed "final_answer")

/-- A sequence of completed streams: fold `onFinish` over the parsed
payloads with their timestamps. -/
def runFinishes (msgs : List (Json × String)) (s : SolveState) : SolveState :=
  msgs.foldl (fun st m => onFinish (some m.1) m.2 st) s

/-! ## The saved-solutions persistence shim (`content.js` lines 705-743) -/

/-- The JSON body sent to `/api/math-solutions`: a `method` discriminator
plus the optional payload fields that appear in the source. -/
structure ApiBody where
  method : String
  id : Option Nat
  is_favorite : Option Bool
  notes : Option String
  equation : Option String
  solutionField : Option Json

/-- The body `{ method: "GET" }` sent by `fetchSavedSolutions`. -/
def fetchSavedSolutionsBody : ApiBody :=
  ApiBody.mk "GET" none none none none none

/-- Requests emitted by `fetchSavedSolutions` (`content.js` lines 705-716):
one GET-of-the-whole-collection body. -/
def fetchSavedSolutions : List ApiBody :=
  [fetchSavedSolutionsBody]

/-- Error message of the `toggleFavorite` catch branch. -/
def favErrMsg : String := "Failed to update favorite status"

/-- `toggleFavorite` (`content.js` lines 728-743): requests emitted and the
error cell written.  The PATCH body carries the negated current status; when
its transport succeeds (`transportOk`), `fetchSavedSolutions()` runs next,
otherwise the catch branch records the error and nothing more is sent. -/
def toggleFavorite (id : Nat) (currentStatus : Bool) (transportOk : Bool) :
    List ApiBody × Option String :=
  let patchBody : ApiBody := ApiBody.mk "PATCH" (some id) (some (!currentStatus)) none none none
  if transportOk then (patchBody :: fetchSavedSolutions, none)
  else ([patchBody], some favErrMsg)

/-! ## The image-to-equation flow (`handleImageUpload`, `content.js`
lines 626-660, and `handleDrop`, lines 666-675) -/

/-- An image file: its MIME type and an identifier standing for its
contents (used to model `URL.createObjectURL`). -/
structure ImgFile where
  mime : String
  ident : Nat

/-- Requests issued by the image flow: the upload call, the vision
transcription call, and the hand-off to `solveEquation`. -/
inductive ImgReq where
  | upload : ImgFile → ImgReq
  | vision : String → ImgReq
  | solveCall : String → ImgReq

/-- The state cells touched by the image flow. -/
structure ImgState where
  file : Option ImgFile
  previewImage : Option Nat
  input : String
  error : Option String

/-- The single generic error message of the image flow. -/
def imgErrMsg : String := "Failed to process the image. Please try again."

/-- `handleImageUpload` for current file `f`: `uploadRes` is the outcome of
`upload({ file })` (`Except.error` when `{ error }` was truthy, else the
URL), `visionRes` the transcription outcome (`none` on transport failure or
non-ok response).  On upload failure the catch branch reports the generic
error and nothing else changes; on upload success the preview is set, then
the vision call is made; its failure reports the same generic error, and
its success stores the equation as the input and calls `solveEquation`. -/
def handleImageUpload (f : ImgFile) (uploadRes : Except String String)
    (visionRes : Option String) (s : ImgState) : ImgState × List ImgReq :=
  match uploadRes with
  | Except.error _ => ({ s with error := some imgErrMsg }, [ImgReq.upload f])
  | Except.ok url =>
    let s1 := { s with previewImage := some f.ident }
    match visionRes with
    | none => ({ s1 with error := some imgErrMsg }, [ImgReq.upload f, ImgReq.vision url])
    | some eqn =>
      ({ s1 with input := eqn }, [ImgReq.upload f, ImgReq.vision url, ImgReq.solveCall eqn])

/-- `handleDrop` (`content.js` lines 666-675): a dropped file whose MIME
type starts with `image/` is stored and its preview set immediately; no
network request is issued. -/
def handleDrop (dropped : Option ImgFile) (s : ImgState) : ImgState × List ImgReq :=
  match dropped with
  | none => (s, [])
  | some f =>
    if jsStartsWith f.mime "image/" then
      ({ s with file := some f, previewImage := some f.ident }, [])
    else (s, [])

end MMP

namespace MMP

/-! ## Substring and regex lemmas -/

/-- A prefix occurrence is a substring occurrence. -/
theorem containsSub_of_startsWith {s w : List Char} (h : startsWithChars s w = true) :
    containsSub s w = true := by
  cases s with
  | nil => simpa [containsSub] using h
  | cons c tl => simp [containsSub, h]

/-- A substring occurrence in the tail is one in the whole list. -/
theorem containsSub_cons {tl w : List Char} (c : Char) (h : containsSub tl w = true) :
    containsSub (c :: tl) w = true := by
  simp [containsSub, h]

/-- If the trig regex scan succeeds, one of the three words occurs as a
plain substring. -/
theorem trigScan_contains :
    ∀ (s : List Char) (prev : Option Char), trigScan prev s = true →
      containsSub s sinChars = true ∨ containsSub s cosChars = true ∨
      containsSub s tanChars = true := by
  intro s
  induction s with
  | nil => intro prev h; simp [trigScan] at h
  | cons c tl ih =>
    intro prev h
    rw [trigScan, Bool.or_eq_true] at h
    rcases h with h | h
    · rw [hereMatch, Bool.or_eq_true, Bool.or_eq_true] at h
      rcases h with (h | h) | h
      · rw [wordHit, Bool.and_eq_true, Bool.and_eq_true] at h
        exact Or.inl (containsSub_of_startsWith h.1.1)
      · rw [wordHit, Bool.and_eq_true, Bool.and_eq_true] at h
        exact Or.inr (Or.inl (containsSub_of_startsWith h.1.1))
      · rw [wordHit, Bool.and_eq_true, Bool.and_eq_true] at h
        exact Or.inr (Or.inr (containsSub_of_startsWith h.1.1))
    · rcases ih (some c) h with h | h | h
      · exact Or.inl (containsSub_cons c h)
      · exact Or.inr (Or.inl (containsSub_cons c h))
      · exact Or.inr (Or.inr (containsSub_cons c h))

/-- Without any `sin`, `cos` or `tan` substring the trig regex cannot
match. -/
theorem trig_false_of_no_sub (s : String) (hsin : includes s "sin" = false)
    (hcos : includes s "cos" = false) (htan : includes s "tan" = false) :
    trigRegexMatch s = false := by
  cases h : trigRegexMatch s
  · rfl
  · exfalso
    rcases trigScan_contains s.data none h with hc | hc | hc
    · exact absurd hc (by simpa [includes] using congrArg (fun b => b) hsin)
    · exact absurd hc (by simpa [includes] using congrArg (fun b => b) hcos)
    · exact absurd hc (by simpa [includes] using congrArg (fun b => b) htan)

end MMP

namespace MMP

/-- C4: every input string containing the character `=` is classified as
`Algebra` by `detectMathTopic` — in both source versions — regardless of
which other keywords also appear, because the `=` check is evaluated
first. -/
theorem equals_sign_wins_algebra (s : String) (h : includes s "=" = true) :
    detectMathTopic s = "Algebra" ∧ detectMathTopicP0 s = "Algebra" := by
  constructor <;> simp [detectMathTopic, detectMathTopicP0, h]

/-- Witness for C4: an input carrying `=` together with trig, percent and
root tokens is still classified `Algebra`. -/
theorem equals_sign_wins_algebra_witness :
    detectMathTopic "sin x = cos y + 10% + √2" = "Algebra"
  ∧ detectMathTopicP0 "sin x = cos y + 10% + √2" = "Algebra" :=
  equals_sign_wins_algebra "sin x = cos y + 10% + √2" (by decide)

/-- C5: every non-empty input containing none of the special tokens (`=`,
`sin`, `cos`, `tan`, `∫`, `d/dx`, `√`, `%`, `matrix`, `[`) is classified
as `General Mathematics`, by both source versions of `detectMathTopic`. -/
theorem no_tokens_general_mathematics (s : String)
    (_hne : s ≠ "")
    (heq : includes s "=" = false) (hsin : includes s "sin" = false)
    (hcos : includes s "cos" = false) (htan : includes s "tan" = false)
    (hitl : includes s "∫" = false) (hddx : includes s "d/dx" = false)
    (hroot : includes s "√" = false) (hpct : includes s "%" = false)
    (hmat : includes s "matrix" = false) (hbr : includes s "[" = false) :
    detectMathTopic s = "General Mathematics"
  ∧ detectMathTopicP0 s = "General Mathematics" := by
  have htrig : trigRegexMatch s = false := trig_false_of_no_sub s hsin hcos htan
  constructor <;>
    simp [detectMathTopic, detectMathTopicP0, heq, hsin, hcos, htan, hitl, hddx,
      hroot, hpct, hmat, hbr, htrig]

/-- Witness for C5: `17+2` contains no special token and is classified
`General Mathematics` by both versions. -/
theorem no_tokens_general_mathematics_witness :
    detectMathTopic "17+2" = "General Mathematics"
  ∧ detectMathTopicP0 "17+2" = "General Mathematics" :=
  no_tokens_general_mathematics "17+2" (by decide) (by decide) (by decide)
    (by decide) (by decide) (by decide) (by decide) (by decide) (by decide)
    (by decide) (by decide)

/-- Counterexample for C9: on the input `sine` the word-boundary regex
version of `content.js` answers `General Mathematics` while the plain
substring version of `part_000` answers `Trigonometry`, so the two
embeddings are not equivalent. -/
theorem detect_topic_versions_cex :
    detectMathTopic "sine" = "General Mathematics"
  ∧ detectMathTopicP0 "sine" = "Trigonometry"
  ∧ detectMathTopic "sine" ≠ detectMathTopicP0 "sine" :=
  ⟨by decide, by decide, by decide⟩

/-- C9 as amended: the two versions of `detectMathTopic` agree on every
input that contains `=` or contains none of `sin`, `cos`, `tan` as a
substring; they differ on inputs such as `sine`, where the substring test
fires inside a longer word but the word-boundary regex does not. -/
theorem detect_topic_versions_agree_amended (s : String)
    (h : includes s "=" = true ∨
      (includes s "sin" = false ∧ includes s "cos" = false ∧
        includes s "tan" = false)) :
    detectMathTopic s = detectMathTopicP0 s := by
  rcases h with h | ⟨hs, hc, ht⟩
  · simp [detectMathTopic, detectMathTopicP0, h]
  · have htrig : trigRegexMatch s = false := trig_false_of_no_sub s hs hc ht
    simp [detectMathTopic, detectMathTopicP0, hs, hc, ht, htrig]

/-- Witness for the amended C9: an input with `=` on which both versions
agree. -/
theorem detect_topic_versions_agree_amended_witness :
    detectMathTopic "x=1" = detectMathTopicP0 "x=1" :=
  detect_topic_versions_agree_amended "x=1" (Or.inl (by decide))

end MMP

namespace MMP

/-! ## `cleanEquation` lemmas -/

/-- The three successive deletions of `cleanEquation` amount to one filter
keeping exactly the characters that are not backslash, brace or dollar. -/
theorem cleanEquation_data (s : String) :
    (cleanEquation s).data = s.data.filter fun c => !removedChar c := by
  show removeDollars (removeBraces (removeBackslashes s.data)) = _
  simp only [removeDollars, removeBraces, removeBackslashes, List.filter_filter]
  refine List.filter_congr ?_
  intro c _
  by_cases h1 : c = '\\' <;> by_cases h2 : c = '\x7b' <;>
    by_cases h3 : c = '\x7d' <;> by_cases h4 : c = '$' <;>
    simp [removedChar, h1, h2, h3, h4]

/-- C6: `cleanEquation` returns its input with every backslash, brace and
dollar character removed and all other characters kept in order; in
particular it maps the string backslash-f-r-a-c-brace-1-brace-brace-2-brace
to `frac12`. -/
theorem cleanEquation_removes_latex_chars :
    (∀ s : String, (cleanEquation s).data = s.data.filter fun c => !removedChar c)
  ∧ cleanEquation "\\frac\x7b1\x7d\x7b2\x7d" = "frac12" :=
  ⟨cleanEquation_data, by decide⟩

/-- C10: `cleanEquation` is idempotent — cleaning an already cleaned string
changes nothing. -/
theorem cleanEquation_idempotent (s : String) :
    cleanEquation (cleanEquation s) = cleanEquation s := by
  apply String.ext
  rw [cleanEquation_data, cleanEquation_data, List.filter_filter]
  refine List.filter_congr ?_
  intro c _
  cases h : removedChar c <;> simp [h]

end MMP

namespace MMP

/-! ## Stream-completion handler lemmas -/

/-- On an accepted payload `onFinish` commits the solution, appends the
history entry and clears the buffer, leaving the error cell alone. -/
theorem onFinish_accepted (parsed : Json) (ts : String) (s : SolveState)
    (h : accepts parsed = true) :
    onFinish (some parsed) ts s =
      { s with streamingResponse := "", solution := some parsed,
               history := historyAppend s.history
                 { input := s.input, solution := parsed, timestamp := ts } } := by
  rw [accepts, Bool.and_eq_true] at h
  simp [onFinish, h.1, h.2]

/-- On a rejected payload `onFinish` records the incompleteness error and
clears the buffer, leaving solution and history alone. -/
theorem onFinish_rejected (parsed : Json) (ts : String) (s : SolveState)
    (h : accepts parsed = false) :
    onFinish (some parsed) ts s =
      { s with streamingResponse := "", error := some incompleteMsg } := by
  rw [accepts, Bool.and_eq_false_iff] at h
  rcases h with h | h <;> simp [onFinish, h]

/-- Truncating to the last five absorbs an earlier truncation. -/
theorem sliceLast5_absorb (l t : List HistoryEntry) :
    sliceLast5 (sliceLast5 l ++ t) = sliceLast5 (l ++ t) := by
  unfold sliceLast5
  simp only [List.length_append, List.length_drop,
    List.drop_append_eq_append_drop, List.drop_drop]
  congr 1
  · congr 1
    omega
  · congr 1
    omega

/-- The truncated history holds `min n 5` entries. -/
theorem sliceLast5_length (l : List HistoryEntry) :
    (sliceLast5 l).length = min l.length 5 := by
  simp [sliceLast5]
  omega

/-- Running `onFinish` over a list of accepted payloads: the history is the
truncation of the accumulated entry list, and the input cell is never
touched. -/
theorem runFinishes_history (msgs : List (Json × String)) :
    ∀ (s : SolveState) (l : List HistoryEntry), s.history = sliceLast5 l →
      (∀ m ∈ msgs, accepts m.1 = true) →
      (runFinishes msgs s).history =
        sliceLast5 (l ++ msgs.map fun m =>
          HistoryEntry.mk s.input m.1 m.2)
      ∧ (runFinishes msgs s).input = s.input := by
  induction msgs with
  | nil =>
    intro s l hist _
    exact ⟨by simpa [runFinishes] using hist, rfl⟩
  | cons m rest ih =>
    intro s l hist hacc
    have hm : accepts m.1 = true := hacc m (List.mem_cons_self m rest)
    have hrest : ∀ x ∈ rest, accepts x.1 = true :=
      fun x hx => hacc x (List.mem_cons_of_mem m hx)
    have hstep : runFinishes (m :: rest) s =
        runFinishes rest (onFinish (some m.1) m.2 s) := rfl
    have hs' := onFinish_accepted m.1 m.2 s hm
    have hhist : (onFinish (some m.1) m.2 s).history =
        sliceLast5 (l ++ [HistoryEntry.mk s.input m.1 m.2]) := by
      rw [hs']
      show historyAppend s.history (HistoryEntry.mk s.input m.1 m.2) = _
      rw [historyAppend, hist, sliceLast5_absorb]
    have hinp : (onFinish (some m.1) m.2 s).input = s.input := by
      rw [hs']
    have := ih (onFinish (some m.1) m.2 s)
      (l ++ [HistoryEntry.mk s.input m.1 m.2]) hhist hrest
    rw [hstep]
    refine ⟨?_, this.2.trans hinp⟩
    rw [this.1, hinp, List.append_assoc]
    rfl

/-- C2: when the accumulated stream text is not valid JSON (`JSON.parse`
throws), `onFinish` reports the invalid-response-format error, leaves the
current solution and the history unchanged, and clears the in-progress
streaming buffer. -/
theorem invalid_json_reports_format_error (ts : String) (s : SolveState) :
    (onFinish none ts s).error = some invalidFormatMsg
  ∧ (onFinish none ts s).solution = s.solution
  ∧ (onFinish none ts s).history = s.history
  ∧ (onFinish none ts s).streamingResponse = "" :=
  ⟨rfl, rfl, rfl, rfl⟩

/-- Counterexample for C1 as stated: the payload with an empty `steps`
array and `final_answer` `42` parses, has empty `steps`, and is still
committed as the solution, because the source only tests JS truthiness of
the field (`!parsed?.steps`) and an empty array is truthy. -/
theorem solve_commit_gate_cex :
    (onFinish
        (some (Json.obj [("steps", Json.arr []), ("final_answer", Json.str "42")]))
        "t" (SolveState.mk "x+1=2" none none "" [])).solution
      = some (Json.obj [("steps", Json.arr []), ("final_answer", Json.str "42")])
  ∧ getField (Json.obj [("steps", Json.arr []), ("final_answer", Json.str "42")])
      "steps" = some (Json.arr []) :=
  ⟨rfl, rfl⟩

/-- C1 as amended: `onFinish` commits a parsed payload exactly when both
`steps` and `final_answer` are present and truthy under JS truthiness — so
a missing or empty-string `final_answer` is rejected, but an empty `steps`
array (truthy in JS) is accepted.  On rejection it reports the
incomplete-solution-data error and leaves solution and history unchanged;
the in-progress buffer is cleared in every case. -/
theorem solve_commit_gate_amended (parsed : Json) (ts : String) (s : SolveState) :
    (accepts parsed = true →
        (onFinish (some parsed) ts s).solution = some parsed
      ∧ (onFinish (some parsed) ts s).error = s.error
      ∧ (onFinish (some parsed) ts s).history =
          historyAppend s.history
            { input := s.input, solution := parsed, timestamp := ts })
  ∧ (accepts parsed = false →
        (onFinish (some parsed) ts s).solution = s.solution
      ∧ (onFinish (some parsed) ts s).history = s.history
      ∧ (onFinish (some parsed) ts s).error = some incompleteMsg)
  ∧ (onFinish (some parsed) ts s).streamingResponse = "" := by
  refine ⟨fun h => ?_, fun h => ?_, ?_⟩
  · rw [onFinish_accepted parsed ts s h]
    exact ⟨rfl, rfl, rfl⟩
  · rw [onFinish_rejected parsed ts s h]
    exact ⟨rfl, rfl, rfl⟩
  · cases h : accepts parsed
    · rw [onFinish_rejected parsed ts s h]
    · rw [onFinish_accepted parsed ts s h]

/-- Witness for the amended C1: a payload with one step and a non-empty
final answer is committed; a payload missing `steps` triggers the
incompleteness error. -/
theorem solve_commit_gate_amended_witness :
    (onFinish
        (some (Json.obj [("steps", Json.arr [Json.str "s1"]),
          ("final_answer", Json.str "4")]))
        "t" (SolveState.mk "q" none none "" [])).solution
      = some (Json.obj [("steps", Json.arr [Json.str "s1"]),
          ("final_answer", Json.str "4")])
  ∧ (onFinish (some (Json.obj [("final_answer", Json.str "4")]))
        "t" (SolveState.mk "q" none none "" [])).error = some incompleteMsg :=
  ⟨((solve_commit_gate_amended
      (Json.obj [("steps", Json.arr [Json.str "s1"]), ("final_answer", Json.str "4")])
      "t" (SolveState.mk "q" none none "" [])).1 rfl).1,
   ((solve_commit_gate_amended (Json.obj [("final_answer", Json.str "4")])
      "t" (SolveState.mk "q" none none "" [])).2.1 rfl).2.2⟩

/-- C3: over any sequence of accepted solves starting from an empty
history, the history is exactly the truncation of the appended entry list
to the most recent five (oldest evicted first), and its length is
`min n 5` — in particular never more than five. -/
theorem history_last_five (msgs : List (Json × String)) (s : SolveState)
    (hacc : ∀ m ∈ msgs, accepts m.1 = true) (h0 : s.history = []) :
    (runFinishes msgs s).history
      = sliceLast5 (msgs.map fun m => HistoryEntry.mk s.input m.1 m.2)
  ∧ (runFinishes msgs s).history.length = min msgs.length 5 := by
  have h := runFinishes_history msgs s [] (by rw [h0]; rfl) hacc
  refine ⟨by simpa using h.1, ?_⟩
  rw [(by simpa using h.1 : (runFinishes msgs s).history =
    sliceLast5 (msgs.map fun m => HistoryEntry.mk s.input m.1 m.2))]
  rw [sliceLast5_length, List.length_map]

/-- Witness for C3: six successful solves leave exactly five history
entries, the first one evicted. -/
theorem history_last_five_witness :
    (runFinishes
        [(Json.obj [("steps", Json.arr [Json.num 1]), ("final_answer", Json.str "a")], "t1"),
         (Json.obj [("steps", Json.arr [Json.num 2]), ("final_answer", Json.str "a")], "t2"),
         (Json.obj [("steps", Json.arr [Json.num 3]), ("final_answer", Json.str "a")], "t3"),
         (Json.obj [("steps", Json.arr [Json.num 4]), ("final_answer", Json.str "a")], "t4"),
         (Json.obj [("steps", Json.arr [Json.num 5]), ("final_answer", Json.str "a")], "t5"),
         (Json.obj [("steps", Json.arr [Json.num 6]), ("final_answer", Json.str "a")], "t6")]
        (SolveState.mk "q" none none "" [])).history.length = 5 :=
  (history_last_five _ (SolveState.mk "q" none none "" [])
      (by intro m hm; fin_cases hm <;> rfl) rfl).2.trans (by rfl)

end MMP

namespace MMP

/-- C7: for every saved-solution id and current favorite status, a
successful `toggleFavorite` emits exactly two requests in order — first a
`PATCH` body carrying the boolean negation of the current status for that
id, then the full-collection `GET` of `fetchSavedSolutions` — and records
no error. -/
theorem toggleFavorite_patch_then_refetch (id : Nat) (cur : Bool) :
    (toggleFavorite id cur true).1
      = [ApiBody.mk "PATCH" (some id) (some (!cur)) none none none,
         fetchSavedSolutionsBody]
  ∧ fetchSavedSolutionsBody.method = "GET"
  ∧ (toggleFavorite id cur true).2 = none :=
  ⟨rfl, rfl, rfl⟩

/-- Counterexample for C8 as stated: dropping a file of MIME type
`image/png` sets the image preview immediately (`handleDrop`,
`content.js` lines 666-675) while issuing no request at all — so the
preview is not only set after a successful upload URL has been obtained. -/
theorem image_flow_preview_cex :
    (handleDrop (some (ImgFile.mk "image/png" 7))
        (ImgState.mk none none "" none)).1.previewImage = some 7
  ∧ (handleDrop (some (ImgFile.mk "image/png" 7))
        (ImgState.mk none none "" none)).2 = [] :=
  ⟨rfl, rfl⟩

/-- C8 as amended: within `handleImageUpload` the preview is only (re)set
after a successful upload URL is obtained — an upload failure leaves the
preview unchanged — and every failure at upload or transcription is
reported as the single generic error string; but the drop handler (and the
file picker) set the preview immediately when an image file is chosen,
before any upload. -/
theorem image_flow_preview_amended (f : ImgFile) (upl : Except String String)
    (vis : Option String) (s : ImgState) :
    (∀ e, upl = Except.error e →
        (handleImageUpload f upl vis s).1.previewImage = s.previewImage
      ∧ (handleImageUpload f upl vis s).1.error = some imgErrMsg)
  ∧ ((handleImageUpload f upl vis s).1.previewImage ≠ s.previewImage →
      ∃ url, upl = Except.ok url)
  ∧ (∀ url, upl = Except.ok url → vis = none →
      (handleImageUpload f upl vis s).1.error = some imgErrMsg) := by
  cases upl <;> cases vis <;> simp [handleImageUpload]

/-- Witness for the amended C8: an upload failure and a transcription
failure both produce the generic image error. -/
theorem image_flow_preview_amended_witness :
    (handleImageUpload (ImgFile.mk "image/png" 1) (Except.error "boom") none
        (ImgState.mk none none "" none)).1.error = some imgErrMsg
  ∧ (handleImageUpload (ImgFile.mk "image/png" 1) (Except.ok "u") none
        (ImgState.mk none none "" none)).1.error = some imgErrMsg :=
  ⟨((image_flow_preview_amended (ImgFile.mk "image/png" 1) (Except.error "boom")
      none (ImgState.mk none none "" none)).1 "boom" rfl).2,
   ((image_flow_preview_amended (ImgFile.mk "image/png" 1) (Except.ok "u")
      none (ImgState.mk none none "" none)).2.2 "u" rfl rfl)⟩

end MMP
